import Mathlib

/-!
Verification of the retention-migration engine of `bin/whisper-resize.py`.

The Python script is shallowly embedded below.  Sample values are an
arbitrary type `α` (instantiated with `Int` in concrete runs), missing
samples are `none`, timestamps are `Int`, and the x-files-factor together
with the completeness ratio `len(non_none)/len(bucket)` is modelled in `ℚ`
(the script computes the ratio on small integers, where IEEE doubles are
exact for the comparisons of interest).  The external `whisper` library is
abstracted: `whisper.aggregate` becomes an opaque reduction function passed
as a parameter, `whisper.fetch` becomes a function parameter of the
migration loop, and `whisper.update_many` is modelled by recording the
batches of (timestamp, value) datapoints that the script hands to it.
-/

namespace WhisperResize

/-- Python `range(start, stop, step)` for a positive `step`: the list
`[start, start+step, ...)` of all elements below `stop`. -/
def pyRange (start stop step : Int) : List Int :=
  (List.range (((stop - start + step - 1) / step).toNat)).map (fun (i : Nat) => start + (i : Int) * step)

/-- Python slice `l[k:]` where `k : Int` may be negative (negative indices
count from the end, out-of-range indices are clamped). -/
def pySliceFrom {α : Type} (l : List α) (k : Int) : List α :=
  l.drop (if k < 0 then ((l.length : Int) + k).toNat else k.toNat)

/-- Python `==` between an `int` and a tuple: always `False`, since values of
different types compare unequal (`int.__eq__(tuple)` is `NotImplemented`). -/
def pyIntEqPair (_i : Nat) (_p : Nat × Nat) : Bool := false

/-- Line 73 of the script:
`[a['secondsPerPoint'] for a in old_archives] == new_archives`.
The left side is a list of `int`s (old precisions), the right side the list
of `(precision, points)` tuples produced by `parseRetentionDef`.  Python list
equality is length equality plus elementwise equality. -/
def unchangedSchemaCheck (oldArchives : List (Nat × Nat)) (newArchives : List (Nat × Nat)) : Bool :=
  (oldArchives.map Prod.fst).length == newArchives.length &&
    (((oldArchives.map Prod.fst).zip newArchives).all (fun q => pyIntEqPair q.1 q.2))

/-- Lines 106-118 of `find_new_archive`: the scan over the snapshot
`list(new_archives)`.  `rest` is the unprocessed part of the snapshot,
`best` the best-fit candidate recorded so far, and `remaining` the mutable
`new_archives` list from which satisfied specs are removed.  Returns the
final `(best_fit_new_archive, fit_new_archive)` pair together with the
mutated `new_archives` list. -/
def findNewArchiveAux (oldPrec oldRet : Nat) :
    List (Nat × Nat) → Option (Nat × Nat) → List (Nat × Nat) →
    Option (Nat × Nat) × Option (Nat × Nat) × List (Nat × Nat)
  | [], best, remaining => (best, none, remaining)
  | (p, n) :: rest, best, remaining =>
    let r := p * n
    if p ≤ oldPrec ∧ oldPrec % p = 0 then
      let remaining1 := if r ≤ oldRet then remaining.erase (p, n) else remaining
      if r ≥ oldRet then (some (p, n), none, remaining1)
      else findNewArchiveAux oldPrec oldRet rest (some (p, n)) remaining1
    else if r ≥ oldRet ∧ p % oldPrec = 0 then
      (best, some (p, n), if r = oldRet then remaining.erase (p, n) else remaining)
    else
      findNewArchiveAux oldPrec oldRet rest best remaining

/-- Lines 102-119: `find_new_archive(old_archive, new_archives)`.  The old
archive is given by its `secondsPerPoint` and `retention`; the result is
`(best_fit_new_archive, fit_new_archive, new_archives after removals)`. -/
def find_new_archive (oldPrec oldRet : Nat) (new_archives : List (Nat × Nat)) :
    Option (Nat × Nat) × Option (Nat × Nat) × List (Nat × Nat) :=
  findNewArchiveAux oldPrec oldRet new_archives none new_archives

/-- Fuel-driven recursion for `grouped`; the fuel is an upper bound on the
list length, each step consumes one unit of fuel and drops `n ≥ 1` elements,
so `fuel = l.length` always suffices. -/
def groupedAux {α : Type} (n : Nat) : Nat → List (Option α) → List (List (Option α))
  | _, [] => []
  | 0, _ :: _ => []
  | fuel + 1, x :: xs =>
    ((x :: xs).take n ++ List.replicate (n - (x :: xs).length) (none : Option α))
      :: groupedAux n fuel ((x :: xs).drop n)

/-- Lines 122-125: `grouped(n, iterable, fillvalue=None)` built on
`zip_longest`: chunks of exactly `n` slots, the trailing short chunk padded
with `None` up to `n`.  `grouped(0, ...)` (never reached by the script) is
the empty iterator, as `zip_longest()` with no arguments is. -/
def grouped {α : Type} (n : Nat) (l : List (Option α)) : List (List (Option α)) :=
  if n = 0 then [] else groupedAux n l.length l

/-- Lines 175-180, one bucket: feed the non-`None` values of the bucket to
`whisper.aggregate` when the bucket is non-empty and complete enough,
otherwise produce `None`.  `method` models `whisper.aggregate`'s dependence
on both the known values and the full bucket. -/
def aggregateBucket {α : Type} (xff : ℚ) (method : List α → List (Option α) → α)
    (bucket : List (Option α)) : Option α :=
  if (bucket.filterMap id).isEmpty = false ∧
      xff ≤ (((bucket.filterMap id).length : ℚ) / (bucket.length : ℚ)) then
    some (method (bucket.filterMap id) bucket)
  else
    none

/-- Lines 173-180: the aggregation loop over `grouped(num_of_aggregation_points, fit_values)`. -/
def aggregateBuckets {α : Type} (xff : ℚ) (method : List α → List (Option α) → α)
    (n : Nat) (values : List (Option α)) : List (Option α) :=
  (grouped n values).map (aggregateBucket xff method)

/-- Lines 128-131: `write_datapoints(timeinfo, values)` zips
`range(*timeinfo)` with the values, drops the `None`-valued pairs and hands
the rest to `whisper.update_many`.  We model it by the batch of
(timestamp, value) datapoints it writes. -/
def write_datapoints {α : Type} (timeinfo : Int × Int × Int) (values : List (Option α)) :
    List (Int × α) :=
  ((pyRange timeinfo.1 timeinfo.2.1 timeinfo.2.2).zip values).filterMap
    (fun q => q.2.map (fun v => (q.1, v)))

/-- Outcome of one iteration of the migration loop (lines 136-182) for one
old archive. -/
inductive StepOutcome (α : Type) : Type
  | fatalNoFit : StepOutcome α
  | droppedForce : StepOutcome α
  | fatalSmallRetention : StepOutcome α
  | crashUnpackNone : StepOutcome α
  | wrote : List (List (Int × α)) → List (Nat × Nat) → StepOutcome α
  deriving DecidableEq

/-- Lines 143-182: the body of the migration loop for one old archive, after
the fetch.  `old_timeinfo` and `old_values` are the fetch result,
`new_archives` the not-yet-consumed new specs.  `best_new_points` is
`int(best_points / (old_precision / best_precision))` — exact float
arithmetic on a divisor precision, hence `Nat` division.  When the matcher
returns a fit archive but no best-fit archive, line 163 unpacks `None` and
the script dies with a `TypeError`, modelled by `crashUnpackNone`. -/
def migrateStep {α : Type} (force : Bool) (xff : ℚ) (method : List α → List (Option α) → α)
    (oldPrec oldRet : Nat) (old_timeinfo : Int × Int × Int) (old_values : List (Option α))
    (new_archives : List (Nat × Nat)) : StepOutcome α :=
  let res := find_new_archive oldPrec oldRet new_archives
  match res.1, res.2.1 with
  | none, none => if force then .droppedForce else .fatalNoFit
  | some b, none =>
    if b.1 * b.2 < oldRet ∧ force = false then .fatalSmallRetention
    else .wrote [write_datapoints old_timeinfo old_values] res.2.2
  | none, some _ => .crashUnpackNone
  | some bf, some ff =>
    let start := old_timeinfo.1
    let end_ := old_timeinfo.2.1
    let step := old_timeinfo.2.2
    let best_new_points := bf.2 / (oldPrec / bf.1)
    let best_new_values := pySliceFrom old_values ((old_values.length : Int) - (best_new_points : Int))
    let best_new_timeinfo := (end_ - (best_new_points : Int) * step, end_, step)
    let num_of_aggregation_points := ff.1 / oldPrec
    let fit_values := old_values.take best_new_points
    let new_values := aggregateBuckets xff method num_of_aggregation_points fit_values
    let new_timeinfo :=
      (start, start + (new_values.length : Int) * (ff.1 : Int), (ff.1 : Int))
    .wrote [write_datapoints best_new_timeinfo best_new_values,
            write_datapoints new_timeinfo new_values] res.2.2

/-- Outcome of the whole migration loop, carrying all batches written to the
new store file.  `fatal` is a `sys.exit(1)` inside the loop, `crashed` the
unhandled `TypeError` of line 163, `dropped` the force-mode `break`, and
`completed` the normal end of the loop (both of the latter reach the swap
code after the loop). -/
inductive LoopOutcome (α : Type) : Type
  | fatal : List (List (Int × α)) → LoopOutcome α
  | crashed : List (List (Int × α)) → LoopOutcome α
  | dropped : List (List (Int × α)) → LoopOutcome α
  | completed : List (List (Int × α)) → LoopOutcome α
  deriving DecidableEq

/-- Lines 134-182: the migration loop.  `fetch fromTime untilTime` models
`whisper.fetch(path, fromTime, untilTime, now)`; the archives are processed
finest precision first, the `fromTime` cursor narrowing each fetch window.
`acc` accumulates the batches written so far. -/
def migrateLoop {α : Type} (force : Bool) (xff : ℚ) (method : List α → List (Option α) → α)
    (fetch : Int → Int → (Int × Int × Int) × List (Option α)) (now : Int) :
    List (Nat × Nat) → Int → List (Nat × Nat) → List (List (Int × α)) → LoopOutcome α
  | [], _, _, acc => .completed acc
  | (prec, ret) :: rest, fromTime, news, acc =>
    let untilTime := fromTime
    let fromTime1 := now - (ret : Int)
    let fetched := fetch fromTime1 untilTime
    match migrateStep force xff method prec ret fetched.1 fetched.2 news with
    | .fatalNoFit => .fatal acc
    | .fatalSmallRetention => .fatal acc
    | .crashUnpackNone => .crashed acc
    | .droppedForce => .dropped acc
    | .wrote batches news1 => migrateLoop force xff method fetch now rest fromTime1 news1 (acc ++ batches)

/-- File-system actions the script performs, named by target path. -/
inductive FsAction : Type
  | create : String → FsAction
  | write : String → FsAction
  | rename : String → String → FsAction
  | unlink : String → FsAction
  deriving DecidableEq

/-- Whether an action reads, writes, renames or deletes the given path. -/
def FsAction.touches : FsAction → String → Bool
  | .create f, p => f == p
  | .write f, p => f == p
  | .rename a b, p => a == p || b == p
  | .unlink f, p => f == p

/-- The sequence of file-system actions of one run in the default
(no `--newfile`) mode, as a function of the loop outcome: lines 87-98
(optional unlink of a stale temporary file, creation of `path + '.tmp'`),
the `update_many` writes of the loop (one per batch, all to the temporary
file), and — only when the loop falls through to line 184 — the
backup/rename swap of lines 187-202.  A `sys.exit(1)` or the unhandled
`TypeError` stops the run before any rename. -/
def runTrace (path : String) (tmpExists nobackup : Bool) (outcome : LoopOutcome Int) :
    List FsAction :=
  let tmp := path ++ ".tmp"
  let pre := (if tmpExists then [FsAction.unlink tmp] else []) ++ [FsAction.create tmp]
  match outcome with
  | .fatal acc => pre ++ acc.map (fun _ => FsAction.write tmp)
  | .crashed acc => pre ++ acc.map (fun _ => FsAction.write tmp)
  | .dropped acc =>
    pre ++ acc.map (fun _ => FsAction.write tmp)
      ++ [FsAction.rename path (path ++ ".bak"), FsAction.rename tmp path]
      ++ (if nobackup then [FsAction.unlink (path ++ ".bak")] else [])
  | .completed acc =>
    pre ++ acc.map (fun _ => FsAction.write tmp)
      ++ [FsAction.rename path (path ++ ".bak"), FsAction.rename tmp path]
      ++ (if nobackup then [FsAction.unlink (path ++ ".bak")] else [])

/-- Process exit status of the run as a function of the loop outcome: the
in-loop `sys.exit(1)` calls and the unhandled `TypeError` exit non-zero,
the other outcomes reach the swap and exit 0 on a successful rename. -/
def runExitCode {α : Type} : LoopOutcome α → Nat
  | .fatal _ => 1
  | .crashed _ => 1
  | .dropped _ => 0
  | .completed _ => 0

/-- A concrete aggregation function (sum of the present values) used to
instantiate the opaque `whisper.aggregate` parameter in concrete runs. -/
def sumAgg (vals : List Int) (_full : List (Option Int)) : Int :=
  vals.foldl (· + ·) 0

/-- Ten distinct present samples, a concrete fetch result. -/
def vals10 : List (Option Int) :=
  [some 0, some 1, some 2, some 3, some 4, some 5, some 6, some 7, some 8, some 9]

/-! ### Helper lemmas -/

theorem pyRange_getElem? (s e st : Int) (i : Nat) (x : Int)
    (h : (pyRange s e st)[i]? = some x) : x = s + (i : Int) * st := by
  unfold pyRange at h
  rw [List.getElem?_map] at h
  obtain ⟨j, hj, hx⟩ := Option.map_eq_some'.mp h
  have hlt : i < (((e - s + st - 1) / st).toNat) := by
    have h2 := List.getElem?_eq_some_iff.mp hj
    simpa using h2.1
  rw [List.getElem?_range hlt] at hj
  cases hj
  exact hx.symm

theorem write_datapoints_mem {α : Type} (s e st : Int) (vals : List (Option α)) (t : Int) (v : α)
    (h : (t, v) ∈ write_datapoints (s, e, st) vals) :
    ∃ i : Nat, vals[i]? = some (some v) ∧ t = s + (i : Int) * st := by
  unfold write_datapoints at h
  rw [List.mem_filterMap] at h
  obtain ⟨q, hq, hmap⟩ := h
  obtain ⟨a, b⟩ := q
  cases b with
  | none => simp at hmap
  | some w =>
    simp only [Option.map_some'] at hmap
    rw [Option.some.injEq, Prod.mk.injEq] at hmap
    obtain ⟨hat, hwv⟩ := hmap
    obtain ⟨i, hi⟩ := List.mem_iff_getElem?.mp hq
    rw [List.getElem?_zip_eq_some] at hi
    obtain ⟨hi1, hi2⟩ := hi
    refine ⟨i, ?_, ?_⟩
    · rw [hi2, hwv]
    · rw [← hat]
      exact pyRange_getElem? s e st i a hi1

theorem pad_mod_eq (n L : Nat) (h1 : 1 ≤ L) (h2 : L ≤ n) : (n - L % n) % n = n - L := by
  rcases Nat.eq_or_lt_of_le h2 with rfl | hlt
  · simp [Nat.mod_self]
  · rw [Nat.mod_eq_of_lt hlt, Nat.mod_eq_of_lt (by omega)]

theorem groupedAux_length {α : Type} (n : Nat) (hn : n ≠ 0) :
    ∀ (fuel : Nat) (l : List (Option α)), l.length ≤ fuel →
      ∀ c ∈ groupedAux n fuel l, c.length = n := by
  intro fuel
  induction fuel with
  | zero =>
    intro l hl c hc
    have hnil : l = [] := List.length_eq_zero.mp (Nat.le_zero.mp hl)
    subst hnil
    simp [groupedAux] at hc
  | succ fuel ih =>
    intro l hl c hc
    cases l with
    | nil => simp [groupedAux] at hc
    | cons x xs =>
      have hl' : xs.length + 1 ≤ fuel + 1 := by simpa using hl
      simp only [groupedAux] at hc
      rcases List.mem_cons.mp hc with h | h
      · subst h
        simp only [List.length_append, List.length_take, List.length_replicate, List.length_cons]
        omega
      · have hlf : ((x :: xs).drop n).length ≤ fuel := by
          simp only [List.length_drop, List.length_cons]
          omega
        exact ih _ hlf c h

theorem groupedAux_flatten {α : Type} (n : Nat) (hn : n ≠ 0) :
    ∀ (fuel : Nat) (l : List (Option α)), l.length ≤ fuel →
      (groupedAux n fuel l).flatten =
        l ++ List.replicate ((n - l.length % n) % n) (none : Option α) := by
  intro fuel
  induction fuel with
  | zero =>
    intro l hl
    have hnil : l = [] := List.length_eq_zero.mp (Nat.le_zero.mp hl)
    subst hnil
    simp [groupedAux, Nat.mod_self]
  | succ fuel ih =>
    intro l hl
    cases l with
    | nil => simp [groupedAux, Nat.mod_self]
    | cons x xs =>
      have hl' : xs.length + 1 ≤ fuel + 1 := by simpa using hl
      have hlf : ((x :: xs).drop n).length ≤ fuel := by
        simp only [List.length_drop, List.length_cons]
        omega
      simp only [groupedAux, List.flatten_cons]
      rw [ih ((x :: xs).drop n) hlf]
      by_cases hlen : (x :: xs).length ≤ n
      · rw [List.drop_eq_nil_of_le hlen, List.take_of_length_le hlen]
        simp only [List.length_nil, Nat.zero_mod, Nat.sub_zero, Nat.mod_self,
          List.replicate_zero, List.nil_append, List.append_nil]
        rw [pad_mod_eq n (x :: xs).length (by simp) hlen]
      · push_neg at hlen
        have h2 : n - (x :: xs).length = 0 := by
          simp only [List.length_cons]
          simp only [List.length_cons] at hlen
          omega
        rw [h2]
        simp only [List.replicate_zero, List.append_nil]
        have hmod : ((x :: xs).drop n).length % n = (x :: xs).length % n := by
          simp only [List.length_drop]
          exact (Nat.mod_eq_sub_mod (Nat.le_of_lt hlen)).symm
        rw [hmod, ← List.append_assoc, List.take_append_drop]

theorem groupedAux_ne_nil {α : Type} (n : Nat) (fuel : Nat) (l : List (Option α))
    (hne : l ≠ []) (hl : l.length ≤ fuel) : groupedAux n fuel l ≠ [] := by
  cases l with
  | nil => exact absurd rfl hne
  | cons x xs =>
    cases fuel with
    | zero => simp at hl
    | succ fuel => simp [groupedAux]

theorem getLast?_cons_of_ne_nil {β : Type} (a : β) (l : List β) (h : l ≠ []) :
    (a :: l).getLast? = l.getLast? := by
  cases l with
  | nil => exact absurd rfl h
  | cons b m => exact List.getLast?_cons_cons

theorem groupedAux_getLast {α : Type} (n : Nat) (hn : n ≠ 0) :
    ∀ (fuel : Nat) (l : List (Option α)), l.length ≤ fuel → l.length % n ≠ 0 →
      (groupedAux n fuel l).getLast? =
        some (l.drop ((l.length / n) * n) ++
          List.replicate (n - l.length % n) (none : Option α)) := by
  intro fuel
  induction fuel with
  | zero =>
    intro l hl hr
    have hnil : l = [] := List.length_eq_zero.mp (Nat.le_zero.mp hl)
    subst hnil
    simp at hr
  | succ fuel ih =>
    intro l hl hr
    cases l with
    | nil => simp at hr
    | cons x xs =>
      have hl' : xs.length + 1 ≤ fuel + 1 := by simpa using hl
      simp only [groupedAux]
      by_cases hlen : (x :: xs).length ≤ n
      · have hdrop : (x :: xs).drop n = [] := List.drop_eq_nil_of_le hlen
        rw [hdrop]
        have haux : groupedAux n fuel ([] : List (Option α)) = [] := by cases fuel <;> rfl
        rw [haux]
        have hlt : (x :: xs).length < n := by
          rcases Nat.eq_or_lt_of_le hlen with heq | hlt
          · exact absurd (heq ▸ Nat.mod_self n) hr
          · exact hlt
        have hdiv : (x :: xs).length / n = 0 := Nat.div_eq_of_lt hlt
        have hmod : (x :: xs).length % n = (x :: xs).length := Nat.mod_eq_of_lt hlt
        rw [List.getLast?_singleton]
        rw [hdiv, hmod, Nat.zero_mul, List.drop_zero]
        rw [List.take_of_length_le hlen]
      · push_neg at hlen
        have hlfuel : ((x :: xs).drop n).length ≤ fuel := by
          simp only [List.length_drop, List.length_cons]
          omega
        have hmod : ((x :: xs).drop n).length % n = (x :: xs).length % n := by
          simp only [List.length_drop]
          exact (Nat.mod_eq_sub_mod (Nat.le_of_lt hlen)).symm
        have hne : (x :: xs).drop n ≠ [] := by
          intro hcontr
          have hc := congrArg List.length hcontr
          simp only [List.length_drop, List.length_cons, List.length_nil] at hc
          simp only [List.length_cons] at hlen
          omega
        rw [getLast?_cons_of_ne_nil _ _ (groupedAux_ne_nil n fuel _ hne hlfuel)]
        rw [ih _ hlfuel (hmod ▸ hr)]
        congr 1
        rw [List.drop_drop]
        congr 2
        · simp only [List.length_drop]
          have hdiv : (x :: xs).length / n = ((x :: xs).length - n) / n + 1 :=
            Nat.div_eq_sub_div (Nat.pos_of_ne_zero hn) (Nat.le_of_lt hlen)
          rw [hdiv, Nat.add_mul, Nat.one_mul, Nat.add_comm]
        · rw [hmod]

theorem grouped_length_mem {α : Type} (n : Nat) (hn : n ≠ 0) (l : List (Option α)) :
    ∀ c ∈ grouped n l, c.length = n := by
  unfold grouped
  rw [if_neg hn]
  exact groupedAux_length n hn l.length l (Nat.le_refl _)

theorem grouped_flatten {α : Type} (n : Nat) (hn : n ≠ 0) (l : List (Option α)) :
    (grouped n l).flatten = l ++ List.replicate ((n - l.length % n) % n) (none : Option α) := by
  unfold grouped
  rw [if_neg hn]
  exact groupedAux_flatten n hn l.length l (Nat.le_refl _)

theorem grouped_getLast {α : Type} (n : Nat) (hn : n ≠ 0) (l : List (Option α))
    (hr : l.length % n ≠ 0) :
    (grouped n l).getLast? =
      some (l.drop ((l.length / n) * n) ++
        List.replicate (n - l.length % n) (none : Option α)) := by
  unfold grouped
  rw [if_neg hn]
  exact groupedAux_getLast n hn l.length l (Nat.le_refl _) hr

theorem isEmpty_false_iff_length_ne {β : Type} (l : List β) : l.isEmpty = false ↔ l.length ≠ 0 := by
  cases l <;> simp

theorem filterMap_id_replicate_none {α : Type} (k : Nat) :
    (List.replicate k (none : Option α)).filterMap id = [] := by
  induction k with
  | zero => rfl
  | succ k ih => simp [List.replicate_succ, ih]

theorem aggregateBucket_eq_none_iff {α : Type} (xff : ℚ) (method : List α → List (Option α) → α)
    (c : List (Option α)) :
    aggregateBucket xff method c = none ↔
      ((c.filterMap id).length = 0 ∨
        ((c.filterMap id).length : ℚ) / (c.length : ℚ) < xff) := by
  unfold aggregateBucket
  by_cases h1 : (c.filterMap id).isEmpty = false
  · by_cases h2 : xff ≤ ((c.filterMap id).length : ℚ) / (c.length : ℚ)
    · rw [if_pos ⟨h1, h2⟩]
      refine iff_of_false (fun h => Option.noConfusion h) ?_
      push_neg
      exact ⟨(isEmpty_false_iff_length_ne _).mp h1, h2⟩
    · rw [if_neg (fun hc => h2 hc.2)]
      exact iff_of_true rfl (Or.inr (not_le.mp h2))
  · rw [if_neg (fun hc => h1 hc.1)]
    refine iff_of_true rfl (Or.inl ?_)
    by_contra hlen
    exact h1 ((isEmpty_false_iff_length_ne _).mpr hlen)

theorem aggregateBucket_eq_some {α : Type} (xff : ℚ) (method : List α → List (Option α) → α)
    (c : List (Option α)) (h1 : (c.filterMap id).length ≠ 0)
    (h2 : xff ≤ ((c.filterMap id).length : ℚ) / (c.length : ℚ)) :
    aggregateBucket xff method c = some (method (c.filterMap id) c) := by
  unfold aggregateBucket
  rw [if_pos ⟨(isEmpty_false_iff_length_ne _).mpr h1, h2⟩]

theorem aggregateBucket_pad_ne_none {α : Type} (xff : ℚ) (method : List α → List (Option α) → α)
    (real : List (Option α)) (k : Nat)
    (h : aggregateBucket xff method (real ++ List.replicate k none) ≠ none) :
    aggregateBucket xff method real ≠ none := by
  have hfm : ((real ++ List.replicate k none).filterMap id) = real.filterMap id := by
    rw [List.filterMap_append, filterMap_id_replicate_none, List.append_nil]
  rw [Ne, aggregateBucket_eq_none_iff, hfm] at h
  push_neg at h
  obtain ⟨hk, hratio⟩ := h
  rw [Ne, aggregateBucket_eq_none_iff]
  push_neg
  refine ⟨hk, le_trans hratio ?_⟩
  have hkk : 1 ≤ (real.filterMap id).length := Nat.pos_of_ne_zero hk
  have hL : 1 ≤ real.length := le_trans hkk (List.length_filterMap_le id real)
  have hL0 : (0 : ℚ) < (real.length : ℚ) := by exact_mod_cast hL
  have hk0 : (0 : ℚ) ≤ ((List.replicate k (none : Option α)).length : ℚ) := by positivity
  have hLk : (0 : ℚ) < ((real ++ List.replicate k none).length : ℚ) := by
    simp only [List.length_append]
    push_cast
    push_cast at hk0
    linarith
  rw [div_le_div_iff₀ hLk hL0]
  have hle : (real.length : ℚ) ≤ ((real ++ List.replicate k none).length : ℚ) := by
    simp only [List.length_append]
    push_cast
    push_cast at hk0
    linarith
  have hkk0 : (0 : ℚ) ≤ ((real.filterMap id).length : ℚ) := by positivity
  nlinarith

theorem aggregateBucket_xff_nonpos_eq_some {α : Type} (xff : ℚ) (hx : xff ≤ 0)
    (method : List α → List (Option α) → α) (c : List (Option α))
    (h1 : (c.filterMap id).length ≠ 0) :
    aggregateBucket xff method c = some (method (c.filterMap id) c) := by
  apply aggregateBucket_eq_some _ _ _ h1
  refine le_trans hx ?_
  positivity

theorem migrateStep_both_eq {α : Type} (force : Bool) (xff : ℚ)
    (method : List α → List (Option α) → α)
    (oldPrec oldRet : Nat) (s e st : Int) (vals : List (Option α))
    (news rem : List (Nat × Nat)) (bp bn fp fn : Nat)
    (hfind : find_new_archive oldPrec oldRet news = (some (bp, bn), some (fp, fn), rem)) :
    migrateStep force xff method oldPrec oldRet (s, e, st) vals news =
      .wrote
        [write_datapoints (e - ((bn / (oldPrec / bp) : Nat) : Int) * st, e, st)
            (pySliceFrom vals ((vals.length : Int) - ((bn / (oldPrec / bp) : Nat) : Int))),
         write_datapoints
            (s, s + ((aggregateBuckets xff method (fp / oldPrec)
                (vals.take (bn / (oldPrec / bp)))).length : Int) * (fp : Int), (fp : Int))
            (aggregateBuckets xff method (fp / oldPrec) (vals.take (bn / (oldPrec / bp))))]
        rem := by
  simp only [migrateStep, hfind]

theorem migrateStep_bestonly_eq {α : Type} (force : Bool) (xff : ℚ)
    (method : List α → List (Option α) → α)
    (oldPrec oldRet : Nat) (s e st : Int) (vals : List (Option α))
    (news rem : List (Nat × Nat)) (b : Nat × Nat)
    (hfind : find_new_archive oldPrec oldRet news = (some b, none, rem))
    (hok : ¬(b.1 * b.2 < oldRet ∧ force = false)) :
    migrateStep force xff method oldPrec oldRet (s, e, st) vals news =
      .wrote [write_datapoints (s, e, st) vals] rem := by
  simp only [migrateStep, hfind]
  rw [if_neg hok]

theorem migrateStep_nofit_eq {α : Type} (force : Bool) (xff : ℚ)
    (method : List α → List (Option α) → α)
    (oldPrec oldRet : Nat) (ti : Int × Int × Int) (vals : List (Option α))
    (news rem : List (Nat × Nat))
    (hfind : find_new_archive oldPrec oldRet news = (none, none, rem)) :
    migrateStep force xff method oldPrec oldRet ti vals news =
      (if force then .droppedForce else .fatalNoFit) := by
  simp only [migrateStep, hfind]

/-! ### Claim theorems -/

/-- C1 (amended): when the matcher returns both a `bestFit` archive `(bp, bn)` and an
`exactFit` archive `(fp, fn)` for an old archive, the sequence of values passed to the
bucket aggregation step for `exactFit` is the prefix of `old_values` of length
`best_new_points = bn / (oldPrec / bp)` — the same count as the newest-aligned suffix
copied into `bestFit`, not the remaining older portion — and the bucket size is
`exactFit.precisionSeconds / oldArchive.precisionSeconds`. -/
theorem c1_exactfit_input_amended (force : Bool) (xff : ℚ)
    (method : List Int → List (Option Int) → Int)
    (oldPrec oldRet : Nat) (s e st : Int) (vals : List (Option Int))
    (news rem : List (Nat × Nat)) (bp bn fp fn : Nat)
    (hfind : find_new_archive oldPrec oldRet news = (some (bp, bn), some (fp, fn), rem)) :
    migrateStep force xff method oldPrec oldRet (s, e, st) vals news =
      .wrote
        [write_datapoints (e - ((bn / (oldPrec / bp) : Nat) : Int) * st, e, st)
            (pySliceFrom vals ((vals.length : Int) - ((bn / (oldPrec / bp) : Nat) : Int))),
         write_datapoints
            (s, s + ((aggregateBuckets xff method (fp / oldPrec)
                (vals.take (bn / (oldPrec / bp)))).length : Int) * (fp : Int), (fp : Int))
            (aggregateBuckets xff method (fp / oldPrec) (vals.take (bn / (oldPrec / bp))))]
        rem :=
  migrateStep_both_eq force xff method oldPrec oldRet s e st vals news rem bp bn fp fn hfind

/-- C1 witness: a concrete run in which both archives are matched, evaluating the
amended equation. -/
theorem c1_witness :
    migrateStep false 0 sumAgg 60 600 (60, 660, 60) vals10 [(60, 4), (300, 2)] =
      .wrote
        [write_datapoints (660 - ((4 / (60 / 60) : Nat) : Int) * 60, 660, 60)
            (pySliceFrom vals10 ((vals10.length : Int) - ((4 / (60 / 60) : Nat) : Int))),
         write_datapoints
            (60, 60 + ((aggregateBuckets 0 sumAgg (300 / 60)
                (vals10.take (4 / (60 / 60)))).length : Int) * ((300 : Nat) : Int), ((300 : Nat) : Int))
            (aggregateBuckets 0 sumAgg (300 / 60) (vals10.take (4 / (60 / 60))))]
        [] :=
  c1_exactfit_input_amended false 0 sumAgg 60 600 60 660 60 vals10 [(60, 4), (300, 2)] []
    60 4 300 2 (by decide)

/-- C1 counterexample: with old precision 1, retention 10, fetched values 0..9 and new
specs `[(1,4),(2,5)]`, the second written batch aggregates the first 4 values
(`old_values[:best_new_points]`), not the remaining older portion of 6 values that the
claim describes. -/
theorem c1_counterexample :
    migrateStep false 0 sumAgg 1 10 (0, 10, 1) vals10 [(1, 4), (2, 5)] =
      .wrote [[(6, 6), (7, 7), (8, 8), (9, 9)], [(0, 1), (2, 5)]] [] ∧
    write_datapoints
        (0, 0 + ((aggregateBuckets 0 sumAgg 2 (vals10.take (vals10.length - 4))).length : Int) * 2, 2)
        (aggregateBuckets 0 sumAgg 2 (vals10.take (vals10.length - 4))) ≠ [(0, 1), (2, 5)] := by
  have hg1 : grouped (2 / 1) (vals10.take (4 / (1 / 1))) = [[some 0, some 1], [some 2, some 3]] := by
    decide
  have hA1 : aggregateBuckets 0 sumAgg (2 / 1) (vals10.take (4 / (1 / 1))) = [some 1, some 5] := by
    unfold aggregateBuckets
    rw [hg1]
    simp only [List.map_cons, List.map_nil]
    rw [aggregateBucket_xff_nonpos_eq_some 0 le_rfl sumAgg _ (by decide),
      aggregateBucket_xff_nonpos_eq_some 0 le_rfl sumAgg _ (by decide)]
    decide
  have hg2 : grouped 2 (vals10.take (vals10.length - 4)) =
      [[some 0, some 1], [some 2, some 3], [some 4, some 5]] := by decide
  have hA2 : aggregateBuckets 0 sumAgg 2 (vals10.take (vals10.length - 4)) =
      [some 1, some 5, some 9] := by
    unfold aggregateBuckets
    rw [hg2]
    simp only [List.map_cons, List.map_nil]
    rw [aggregateBucket_xff_nonpos_eq_some 0 le_rfl sumAgg _ (by decide),
      aggregateBucket_xff_nonpos_eq_some 0 le_rfl sumAgg _ (by decide),
      aggregateBucket_xff_nonpos_eq_some 0 le_rfl sumAgg _ (by decide)]
    decide
  constructor
  · rw [migrateStep_both_eq false 0 sumAgg 1 10 0 10 1 vals10 [(1, 4), (2, 5)] [] 1 4 2 5
      (by decide)]
    rw [hA1]
    decide
  · rw [hA2]
    decide

/-- C2 (amended): the aggregated (coarsened) batch is anchored at the start of the old
archive's fetch window, not at the newest-aligned boundary: its timeinfo is
`(start, start + len(output) * P, P)` and every written timestamp is congruent to
`start` modulo the new precision `P` (`(t - start) % P = 0`); the newest written
timestamp is in general not congruent to 0 modulo `P` and the batch start is not
`end - end % P + P - len(output) * P`. -/
theorem c2_alignment_amended (force : Bool) (xff : ℚ)
    (method : List Int → List (Option Int) → Int)
    (oldPrec oldRet : Nat) (s e st : Int) (vals : List (Option Int))
    (news rem : List (Nat × Nat)) (bp bn fp fn : Nat)
    (hfind : find_new_archive oldPrec oldRet news = (some (bp, bn), some (fp, fn), rem)) :
    migrateStep force xff method oldPrec oldRet (s, e, st) vals news =
      .wrote
        [write_datapoints (e - ((bn / (oldPrec / bp) : Nat) : Int) * st, e, st)
            (pySliceFrom vals ((vals.length : Int) - ((bn / (oldPrec / bp) : Nat) : Int))),
         write_datapoints
            (s, s + ((aggregateBuckets xff method (fp / oldPrec)
                (vals.take (bn / (oldPrec / bp)))).length : Int) * (fp : Int), (fp : Int))
            (aggregateBuckets xff method (fp / oldPrec) (vals.take (bn / (oldPrec / bp))))]
        rem ∧
    ∀ t v, (t, v) ∈ write_datapoints
        (s, s + ((aggregateBuckets xff method (fp / oldPrec)
            (vals.take (bn / (oldPrec / bp)))).length : Int) * (fp : Int), (fp : Int))
        (aggregateBuckets xff method (fp / oldPrec) (vals.take (bn / (oldPrec / bp)))) →
      (t - s) % (fp : Int) = 0 := by
  constructor
  · exact migrateStep_both_eq force xff method oldPrec oldRet s e st vals news rem bp bn fp fn hfind
  · intro t v hm
    obtain ⟨i, _, ht⟩ := write_datapoints_mem _ _ _ _ t v hm
    rw [ht, add_sub_cancel_left]
    exact Int.mul_emod_left _ _

/-- C2 witness: a concrete aggregated batch at aligned fetch start 0, every written
timestamp congruent to the start modulo the new precision. -/
theorem c2_witness :
    migrateStep false 0 sumAgg 1 10 (0, 10, 1) vals10 [(1, 4), (2, 5)] =
      .wrote
        [write_datapoints (10 - ((4 / (1 / 1) : Nat) : Int) * 1, 10, 1)
            (pySliceFrom vals10 ((vals10.length : Int) - ((4 / (1 / 1) : Nat) : Int))),
         write_datapoints
            (0, 0 + ((aggregateBuckets 0 sumAgg (2 / 1)
                (vals10.take (4 / (1 / 1)))).length : Int) * ((2 : Nat) : Int), ((2 : Nat) : Int))
            (aggregateBuckets 0 sumAgg (2 / 1) (vals10.take (4 / (1 / 1))))]
        [] ∧
    ∀ t v, (t, v) ∈ write_datapoints
        (0, 0 + ((aggregateBuckets 0 sumAgg (2 / 1)
            (vals10.take (4 / (1 / 1)))).length : Int) * ((2 : Nat) : Int), ((2 : Nat) : Int))
        (aggregateBuckets 0 sumAgg (2 / 1) (vals10.take (4 / (1 / 1)))) →
      (t - 0) % ((2 : Nat) : Int) = 0 :=
  c2_alignment_amended false 0 sumAgg 1 10 0 10 1 vals10 [(1, 4), (2, 5)] [] 1 4 2 5 (by decide)

/-- C2 counterexample: with fetch window (60, 660) at old precision 60 and new specs
`[(60,4),(300,2)]`, the aggregated batch written is `[(60, 6)]`: its newest timestamp 60
is not congruent to 0 modulo 300, and the batch start 60 differs from the claim's
`end - end % P + P - len * P = 600`. -/
theorem c2_counterexample :
    migrateStep false 0 sumAgg 60 600 (60, 660, 60) vals10 [(60, 4), (300, 2)] =
      .wrote [[(420, 6), (480, 7), (540, 8), (600, 9)], [(60, 6)]] [] ∧
    ¬ ((60 : Int) % 300 = 0) ∧
    (60 : Int) ≠ 660 - 660 % 300 + 300 - 1 * 300 := by
  have hg : grouped (300 / 60) (vals10.take (4 / (60 / 60))) =
      [[some 0, some 1, some 2, some 3, none]] := by decide
  have hA : aggregateBuckets 0 sumAgg (300 / 60) (vals10.take (4 / (60 / 60))) = [some 6] := by
    unfold aggregateBuckets
    rw [hg]
    simp only [List.map_cons, List.map_nil]
    rw [aggregateBucket_xff_nonpos_eq_some 0 le_rfl sumAgg _ (by decide)]
    decide
  refine ⟨?_, by decide, by decide⟩
  rw [migrateStep_both_eq false 0 sumAgg 60 600 60 660 60 vals10 [(60, 4), (300, 2)] []
    60 4 300 2 (by decide)]
  rw [hA]
  decide

/-- C3 (amended): a bucket with `k` present samples out of `n` slots resolves to `None`
iff `k = 0` or `k/n < xFilesFactor`; when `k ≥ 1` and `k/n ≥ xFilesFactor` (boundary
included) the bucket is aggregated to `method` applied to the present values.  (The
claim's pure `k/n < xFilesFactor` criterion fails for an entirely missing bucket at
`xFilesFactor = 0`, which still resolves to `None`.) -/
theorem c3_threshold_amended (xff : ℚ) (method : List Int → List (Option Int) → Int)
    (c : List (Option Int)) :
    (aggregateBucket xff method c = none ↔
      ((c.filterMap id).length = 0 ∨
        ((c.filterMap id).length : ℚ) / (c.length : ℚ) < xff)) ∧
    ((c.filterMap id).length ≠ 0 →
      xff ≤ ((c.filterMap id).length : ℚ) / (c.length : ℚ) →
      aggregateBucket xff method c = some (method (c.filterMap id) c)) :=
  ⟨aggregateBucket_eq_none_iff xff method c,
   fun h1 h2 => aggregateBucket_eq_some xff method c h1 h2⟩

/-- C3 witness: a bucket with 1 of 2 present samples at the exact boundary
`xFilesFactor = 1/2` is aggregated. -/
theorem c3_witness :
    aggregateBucket ((1 : ℚ) / 2) sumAgg [some 1, none] =
      some (sumAgg (([some 1, none] : List (Option Int)).filterMap id) [some 1, none]) := by
  apply (c3_threshold_amended ((1 : ℚ) / 2) sumAgg [some 1, none]).2
  · decide
  · simp only [List.filterMap_cons, List.filterMap_nil, id_eq, List.length_cons,
      List.length_singleton, List.length_nil]
    norm_num

/-- C3 counterexample: at `xFilesFactor = 0`, an entirely missing bucket resolves to
`None` although its completeness ratio `0/1` is not below the threshold, refuting the
claim's `None iff k/n < xFilesFactor`. -/
theorem c3_counterexample :
    aggregateBucket (0 : ℚ) sumAgg [(none : Option Int)] = none ∧
    ¬ (((([(none : Option Int)].filterMap id).length : ℚ) /
        (([(none : Option Int)] : List (Option Int)).length : ℚ)) < (0 : ℚ)) := by
  constructor
  · rw [aggregateBucket_eq_none_iff]
    left
    decide
  · simp only [List.filterMap_cons, List.filterMap_nil, id_eq, List.length_cons,
      List.length_nil]
    norm_num

/-- C4 (amended): during the matcher scan, a new spec whose precision is strictly
coarser than and divisible by the old archive's precision is returned as the `exactFit`
result as soon as it is reached — but only when its retention is at least the old
archive's retention (`new_retention >= old_retention` is part of the branch condition);
a coarser divisible spec with smaller retention is skipped. -/
theorem c4_coarsen_amended (oldPrec oldRet p n : Nat) (rest : List (Nat × Nat))
    (best : Option (Nat × Nat)) (remaining : List (Nat × Nat))
    (hp : oldPrec < p) (hdvd : p % oldPrec = 0) (hret : oldRet ≤ p * n) :
    findNewArchiveAux oldPrec oldRet ((p, n) :: rest) best remaining =
      (best, some (p, n), if p * n = oldRet then remaining.erase (p, n) else remaining) := by
  simp only [findNewArchiveAux]
  rw [if_neg (fun hc => absurd hc.1 (not_le.mpr hp)), if_pos ⟨hret, hdvd⟩]

/-- C4 witness: the spec (300, 2) with retention 600 equal to the old archive's is
returned as exactFit the moment the scan reaches it. -/
theorem c4_witness :
    60 < 300 ∧ 300 % 60 = 0 ∧ 600 ≤ 300 * 2 ∧
    findNewArchiveAux 60 600 [(300, 2)] none [(300, 2)] =
      (none, some (300, 2),
        if 300 * 2 = 600 then ([(300, 2)] : List (Nat × Nat)).erase (300, 2) else [(300, 2)]) :=
  ⟨by decide, by decide, by decide,
   c4_coarsen_amended 60 600 300 2 [] none [(300, 2)] (by decide) (by decide) (by decide)⟩

/-- C4 counterexample: the spec (300, 1) is strictly coarser than the old precision 60
and divisible by it, yet the matcher does not return it as exactFit because its
retention 300 is below the old archive's 600 — refuting "regardless of its retention". -/
theorem c4_counterexample :
    (find_new_archive 60 600 [(300, 1)]).2.1 = none ∧ 60 < 300 ∧ 300 % 60 = 0 := by
  decide

/-- C5 (code bug): line 73 compares the list of old precisions (ints) against the list
of parsed (precision, points) tuples; in Python an int never equals a tuple, so the
unchanged-schema check never fires — here evaluated at a store with schema 60:1440
resized to the identical 60:1440, where the program proceeds to create the new store
file instead of exiting. -/
theorem c5_unchanged_schema_check :
    unchangedSchemaCheck [(60, 1440)] [(60, 1440)] = false := by
  decide

/-- C6 (amended): when an old archive is matched to a `bestFit` archive with no
`exactFit` (and not aborted by the retention check), every fetched value is written with
its timestamp and magnitude exactly unchanged and with no aggregation — but also with
no truncation: the whole fetched window is written even when it exceeds `bestFit`'s
point budget (force mode); the newest-aligned truncation to
`bestFit.points * bestFit.precision / oldPrecision` samples only happens when an
`exactFit` is also matched. -/
theorem c6_bestfit_copy_amended (force : Bool) (xff : ℚ)
    (method : List Int → List (Option Int) → Int)
    (oldPrec oldRet : Nat) (s e st : Int) (vals : List (Option Int))
    (news rem : List (Nat × Nat)) (b : Nat × Nat)
    (hfind : find_new_archive oldPrec oldRet news = (some b, none, rem))
    (hok : ¬(b.1 * b.2 < oldRet ∧ force = false)) :
    migrateStep force xff method oldPrec oldRet (s, e, st) vals news =
      .wrote [write_datapoints (s, e, st) vals] rem ∧
    ∀ t v, (t, v) ∈ write_datapoints (s, e, st) vals →
      ∃ i : Nat, vals[i]? = some (some v) ∧ t = s + (i : Int) * st := by
  constructor
  · exact migrateStep_bestonly_eq force xff method oldPrec oldRet s e st vals news rem b hfind hok
  · intro t v hm
    exact write_datapoints_mem s e st vals t v hm

/-- C6 witness: a best-fit-only migration with matching retention writes the fetched
values unchanged. -/
theorem c6_witness :
    migrateStep false 0 sumAgg 60 600 (0, 600, 60) vals10 [(60, 10)] =
      .wrote [write_datapoints (0, 600, 60) vals10] [] ∧
    ∀ t v, (t, v) ∈ write_datapoints ((0 : Int), (600 : Int), (60 : Int)) vals10 →
      ∃ i : Nat, vals10[i]? = some (some v) ∧ t = 0 + (i : Int) * 60 :=
  c6_bestfit_copy_amended false 0 sumAgg 60 600 0 600 60 vals10 [(60, 10)] [] (60, 10)
    (by decide) (by decide)

/-- C6 counterexample: under force with the single new spec (60, 4) (budget 4 points),
the best-fit-only path writes all 10 fetched datapoints — the copy is not truncated to
the `bestFit.points * bestFit.precision / oldPrecision = 4` newest values the claim
asserts. -/
theorem c6_counterexample :
    migrateStep true 0 sumAgg 60 600 (0, 600, 60) vals10 [(60, 4)] =
      .wrote [[(0, 0), (60, 1), (120, 2), (180, 3), (240, 4), (300, 5), (360, 6), (420, 7),
               (480, 8), (540, 9)]] [] ∧
    ¬ (([(0, 0), (60, 1), (120, 2), (180, 3), (240, 4), (300, 5), (360, 6), (420, 7),
               (480, 8), (540, 9)] : List (Int × Int)).length ≤ 4 * 60 / 60) := by
  decide

/-- C7: when the matcher finds no new archive for an old archive and force mode is on,
the migration loop stops at that archive with exactly the previously accumulated
writes: no data from this archive nor from any of the remaining (strictly coarser)
old archives is ever written, whatever those archives are. -/
theorem c7_force_drop_stops (force : Bool) (xff : ℚ)
    (method : List Int → List (Option Int) → Int)
    (fetch : Int → Int → (Int × Int × Int) × List (Option Int)) (now : Int)
    (prec ret : Nat) (rest : List (Nat × Nat)) (fromTime : Int)
    (news rem : List (Nat × Nat)) (acc : List (List (Int × Int)))
    (hforce : force = true)
    (hfind : find_new_archive prec ret news = (none, none, rem)) :
    migrateLoop force xff method fetch now ((prec, ret) :: rest) fromTime news acc =
      .dropped acc := by
  subst hforce
  simp only [migrateLoop]
  rw [migrateStep_nofit_eq true xff method prec ret _ _ news rem hfind]
  simp

/-- C7 witness: a concrete forced drop at the first archive with an empty new-spec
list, returning exactly the accumulated writes. -/
theorem c7_witness :
    migrateLoop true 0 sumAgg (fun _ _ => ((0, 600, 60), vals10)) 1000
      [(60, 600), (300, 3000)] 1000 [] [[(0, 5)]] = .dropped [[(0, 5)]] :=
  c7_force_drop_stops true 0 sumAgg (fun _ _ => ((0, 600, 60), vals10)) 1000 60 600
    [(300, 3000)] 1000 [] [] [[(0, 5)]] rfl (by decide)

/-- C8: whenever the migration loop ends with an in-loop fatal exit (no compatible new
archive without force, or a too-small best-fit retention without force), the process
exit status is non-zero and no file-system action of the run touches the original
store file: only the temporary `path + '.tmp'` file is created and written, and the
backup/rename swap is never reached. -/
theorem c8_fatal_untouched (path : String) (tmpExists nobackup : Bool) (force : Bool)
    (xff : ℚ) (method : List Int → List (Option Int) → Int)
    (fetch : Int → Int → (Int × Int × Int) × List (Option Int)) (now : Int)
    (archives : List (Nat × Nat)) (fromTime : Int) (news : List (Nat × Nat))
    (acc0 acc : List (List (Int × Int)))
    (hfatal : migrateLoop force xff method fetch now archives fromTime news acc0 = .fatal acc) :
    runExitCode (migrateLoop force xff method fetch now archives fromTime news acc0) = 1 ∧
    ∀ a ∈ runTrace path tmpExists nobackup
        (migrateLoop force xff method fetch now archives fromTime news acc0),
      a.touches path = false := by
  rw [hfatal]
  have htmp : ((path ++ ".tmp" : String) == path) = false := by
    apply beq_eq_false_iff_ne.mpr
    intro hcontr
    have hlen := congrArg String.length hcontr
    rw [String.length_append] at hlen
    have h4 : (".tmp" : String).length = 4 := rfl
    omega
  refine ⟨rfl, ?_⟩
  intro a ha
  simp only [runTrace] at ha
  rcases List.mem_append.mp ha with h | h
  · rcases List.mem_append.mp h with h2 | h2
    · cases tmpExists with
      | false => simp at h2
      | true =>
        simp only [eq_self_iff_true, if_true, List.mem_singleton] at h2
        subst h2
        simpa [FsAction.touches] using htmp
    · rw [List.mem_singleton] at h2
      subst h2
      simpa [FsAction.touches] using htmp
  · obtain ⟨batch, hbatch, hwrite⟩ := List.mem_map.mp h
    subst hwrite
    simpa [FsAction.touches] using htmp

/-- C8 witness: a concrete fatal run (no new specs, force off) exits 1 and its trace
touches only `db.wsp.tmp`, never `db.wsp`. -/
theorem c8_witness :
    runExitCode (migrateLoop false 0 sumAgg (fun _ _ => ((0, 600, 60), vals10)) 1000
      [(60, 600)] 1000 [] []) = 1 ∧
    ∀ a ∈ runTrace "db.wsp" true false
        (migrateLoop false 0 sumAgg (fun _ _ => ((0, 600, 60), vals10)) 1000
          [(60, 600)] 1000 [] []),
      a.touches "db.wsp" = false :=
  c8_fatal_untouched "db.wsp" true false false 0 sumAgg
    (fun _ _ => ((0, 600, 60), vals10)) 1000 [(60, 600)] 1000 [] [] [] (by decide)

/-- C9: there are inputs on which the migration driver raises an unhandled error: with
old precision 60, retention 600 and the single new spec (300, 2) (retention 600 ≥ 600),
the matcher returns an exactFit but no bestFit, and the driver's unpacking of the
absent best-fit tuple crashes. -/
theorem c9_crash :
    find_new_archive 60 600 [(300, 2)] = (none, some (300, 2), []) ∧
    migrateStep false 0 sumAgg 60 600 (0, 600, 60) vals10 [(300, 2)] = .crashUnpackNone := by
  decide

/-- C10: when the number of values fed to the aggregation step is not a multiple of the
bucket size `n`, every produced bucket still has exactly `n` slots — the values are
padded with missing samples up to a full final bucket — the completeness test of any
bucket divides by the full padded size `n`, and whenever the padded trailing bucket
aggregates, the same samples without padding would aggregate as well (padding can only
turn an aggregated bucket into `None`, never the reverse). -/
theorem c10_trailing_bucket (n : Nat) (l : List (Option Int)) (xff : ℚ)
    (method : List Int → List (Option Int) → Int)
    (hn : 0 < n) (hr : l.length % n ≠ 0) :
    (∀ c ∈ grouped n l, c.length = n) ∧
    (grouped n l).flatten = l ++ List.replicate (n - l.length % n) none ∧
    (grouped n l).getLast? =
      some (l.drop ((l.length / n) * n) ++ List.replicate (n - l.length % n) none) ∧
    (∀ c ∈ grouped n l,
      (aggregateBucket xff method c = none ↔
        ((c.filterMap id).length = 0 ∨ ((c.filterMap id).length : ℚ) / (n : ℚ) < xff))) ∧
    (aggregateBucket xff method
        (l.drop ((l.length / n) * n) ++ List.replicate (n - l.length % n) none) ≠ none →
      aggregateBucket xff method (l.drop ((l.length / n) * n)) ≠ none) := by
  have hn' : n ≠ 0 := Nat.pos_iff_ne_zero.mp hn
  have hpad : (n - l.length % n) % n = n - l.length % n := by
    have h1 : l.length % n < n := Nat.mod_lt _ hn
    have h2 : 1 ≤ l.length % n := Nat.pos_of_ne_zero hr
    exact Nat.mod_eq_of_lt (by omega)
  refine ⟨grouped_length_mem n hn' l, ?_, grouped_getLast n hn' l hr, ?_, ?_⟩
  · rw [grouped_flatten n hn' l, hpad]
  · intro c hc
    rw [aggregateBucket_eq_none_iff]
    rw [grouped_length_mem n hn' l c hc]
  · intro hne
    exact aggregateBucket_pad_ne_none xff method _ _ hne

/-- C10 witness: bucket size 2 over three samples — the hypotheses hold and the
grouped buckets flatten to the input padded with one missing sample. -/
theorem c10_witness :
    0 < 2 ∧ ([some 1, none, some 5] : List (Option Int)).length % 2 ≠ 0 ∧
    (grouped 2 [some 1, none, some 5]).flatten =
      ([some 1, none, some 5] : List (Option Int)) ++ List.replicate 1 none :=
  ⟨by decide, by decide, by
    have h := (c10_trailing_bucket 2 [some 1, none, some 5] ((1 : ℚ) / 2) sumAgg
      (by decide) (by decide)).2.1
    simpa using h⟩

end WhisperResize
